import Mathlib

/-!
Verification development for `src/cnp.c`, a minimal copy-and-patch JIT
demo that compiles and runs `a = (b + c + f * g) * (d + 3)`.

The C program is embedded shallowly:

* `Token` (a `uint64_t`) and `Ast` (a `uint32_t`) values are modelled as
  `Nat`, with the constructor macros `VAR`/`TOK`/`CONST` (cnp.c lines
  70-75) and `UNARYOP`/`UNARYOP_LVAL`/`BINOP` (lines 109-112) translated
  operation for operation (`<<` to `<<<`, `&` to `&&&`, `|` to `|||`).
* The decoding expressions used by `main` (lines 147-152 and 195-206)
  become the `tokenKindOf`/`tokenPayload`/`astKindOf`/`astLval`/
  `astTokIndex` functions; the C cast `(int)` of a 32-bit value is
  modelled by `toInt32`, and the arithmetic right shift `(int)n >> 8`
  by `Int.ediv _ 256` (floor division, which is what an arithmetic
  shift computes).
* `tokens` (lines 121-140) and `nodes` (lines 178-192) are the literal
  arrays from the source.
* The thirteen snippet calls of `main` (lines 289-325) become
  `demoCalls`, each entry recording the operation, the immediate
  (a local slot for loads, a literal for the constant) and the numeric
  depth suffix of the called snippet.
* `snippets.c` (the snippet machine-code bodies, generated by
  `clang_rip.py`) is not part of the sources; its behaviour is modelled
  from the spec where needed and each such definition says so in its
  doc comment.
-/

/-! ## Token encoding (cnp.c lines 44-75) -/

/-- `TokenKind` enumerator `TK_INVALID` (cnp.c lines 49-64). -/
def TK_INVALID : Nat := 0
/-- `TokenKind` enumerator `TK_EQ`. -/
def TK_EQ : Nat := 1
/-- `TokenKind` enumerator `TK_IDENT`. -/
def TK_IDENT : Nat := 2
/-- `TokenKind` enumerator `TK_CONST`. -/
def TK_CONST : Nat := 3
/-- `TokenKind` enumerator `TK_PLUS`. -/
def TK_PLUS : Nat := 4
/-- `TokenKind` enumerator `TK_TIMES`. -/
def TK_TIMES : Nat := 5
/-- `TokenKind` enumerator `TK_LPAREN`. -/
def TK_LPAREN : Nat := 6
/-- `TokenKind` enumerator `TK_RPAREN`. -/
def TK_RPAREN : Nat := 7
/-- `TokenKind` enumerator `TK_EOF`. -/
def TK_EOF : Nat := 8

/-- Macro `VAR(name)` (cnp.c line 70): `(((uintptr_t)name[0]) << 8) | TK_IDENT`
on the 64-bit `Token`; `c` is the character code of `name[0]`. -/
def VAR (c : Nat) : Nat := ((c <<< 8) ||| TK_IDENT) % 2 ^ 64

/-- Macro `TOK(t)` (cnp.c line 74): the bare kind enumerator. -/
def TOK (t : Nat) : Nat := t

/-- Macro `CONST(v)` (cnp.c line 75): `v << 8 | TK_CONST`.  In C the shift
happens in (32-bit) `int` arithmetic, so it is only defined for
`0 ≤ v < 2 ^ 23`; theorems about `CONST` carry that bound. -/
def CONST (v : Nat) : Nat := ((v <<< 8) ||| TK_CONST) % 2 ^ 64

/-- Token kind decode `tokens[i] & 0xff` (cnp.c line 147). -/
def tokenKindOf (t : Nat) : Nat := t &&& 0xff

/-- Token payload decode `tokens[i] >> 8` (cnp.c lines 150 and 152,
before the `(int)` cast used only for printing). -/
def tokenPayload (t : Nat) : Nat := t >>> 8

/-! ## Ast encoding (cnp.c lines 77-112) -/

/-- `AstKind` enumerator `AST_INVALID` (cnp.c lines 88-101). -/
def AST_INVALID : Nat := 0
/-- `AstKind` enumerator `AST_ASSIGN`. -/
def AST_ASSIGN : Nat := 1
/-- `AstKind` enumerator `AST_ADD`. -/
def AST_ADD : Nat := 2
/-- `AstKind` enumerator `AST_MUL`. -/
def AST_MUL : Nat := 3
/-- `AstKind` enumerator `AST_NAME`. -/
def AST_NAME : Nat := 4
/-- `AstKind` enumerator `AST_CONST`. -/
def AST_CONST : Nat := 5

/-- Macro `UNARYOP(k, val)` (cnp.c line 109):
`(((uint32_t)(val & 0xffffff)) << 8) | ((uint32_t)(AST_##k))`; `k` here is
the value of the pasted enumerator. -/
def UNARYOP (k v : Nat) : Nat := ((v &&& 0xffffff) <<< 8) ||| k

/-- Macro `UNARYOP_LVAL(k, val)` (cnp.c lines 110-111):
`(((uint32_t)(val & 0xffffff)) << 8) | (0x80) | ((uint32_t)(AST_##k))`. -/
def UNARYOP_LVAL (k v : Nat) : Nat := (((v &&& 0xffffff) <<< 8) ||| 0x80) ||| k

/-- Macro `BINOP(k, lhs_displ)` (cnp.c line 112):
`(((uint32_t)(lhs_displ & 0xfff)) << 20) | ((uint32_t)(AST_##k))`. -/
def BINOP (k d : Nat) : Nat := ((d &&& 0xfff) <<< 20) ||| k

/-- Ast kind decode `nodes[i] & 0x7f` (cnp.c line 196). -/
def astKindOf (n : Nat) : Nat := n &&& 0x7f

/-- Ast lvalue-flag decode `(bool)(nodes[i] & 0x80)` (cnp.c line 197). -/
def astLval (n : Nat) : Bool := n &&& 0x80 != 0

/-- Reinterpretation of a `uint32_t` bit pattern as a C `int`
(two's complement), used for `(int)nodes[i]` (cnp.c line 200). -/
def toInt32 (n : Nat) : Int :=
  if n % 2 ^ 32 < 2 ^ 31 then ((n % 2 ^ 32 : Nat) : Int)
  else ((n % 2 ^ 32 : Nat) : Int) - 2 ^ 32

/-- Leaf token-index decode `(int)nodes[i] >> 8` (cnp.c line 200): an
arithmetic right shift of the signed reinterpretation, i.e. floor
division by `2 ^ 8` (`/` on `Int` is `Int.ediv`, which floors for a
positive divisor). -/
def astTokIndex (n : Nat) : Int := toInt32 n / 2 ^ 8

/-- The 24-bit leaf index field of a packed Ast node, extracted by a
logical shift (the field `val` stored by `UNARYOP`/`UNARYOP_LVAL`). -/
def astIdxBits (n : Nat) : Nat := (n >>> 8) &&& 0xffffff

/-- The 12-bit left-operand displacement field of a binary Ast node,
extracted by a logical shift (the field `lhs_displ` stored by `BINOP`;
`main` never decodes it, this is the inverse of the documented layout
`8 for kind / ... / 12 for disp`, cnp.c lines 78-86 and 112). -/
def astDisp (n : Nat) : Nat := n >>> 20

/-! ## The demo token and node arrays (cnp.c lines 121-140 and 178-192) -/

/-- The hand-lexed token array `tokens` for `a = (b + c + f * g) * (d + 3)`
(cnp.c lines 121-140); character codes: a=97 b=98 c=99 d=100 f=102 g=103. -/
def tokens : List Nat :=
  [VAR 97, TOK TK_EQ, TOK TK_LPAREN, VAR 98, TOK TK_PLUS, VAR 99,
   TOK TK_PLUS, VAR 102, TOK TK_TIMES, VAR 103, TOK TK_RPAREN,
   TOK TK_TIMES, TOK TK_LPAREN, VAR 100, TOK TK_PLUS, CONST 3,
   TOK TK_RPAREN, TOK TK_EOF]

/-- The hand-parsed postorder node array `nodes` (cnp.c lines 178-192). -/
def nodes : List Nat :=
  [UNARYOP_LVAL AST_NAME 0, UNARYOP AST_NAME 3, UNARYOP AST_NAME 5,
   BINOP AST_ADD 2, UNARYOP AST_NAME 7, UNARYOP AST_NAME 9,
   BINOP AST_MUL 2, BINOP AST_ADD 4, UNARYOP AST_NAME 13,
   UNARYOP AST_CONST 15, BINOP AST_ADD 2, BINOP AST_MUL 4,
   BINOP AST_ASSIGN 12]

/-! ## The stitched snippet calls (cnp.c lines 289-325) -/

/-- Slot index of a single-character local: `name[0] - 'a'`, the index
used by `BYTE_OFFSET_OF_LOCAL` (cnp.c line 247). -/
def localSlot (c : Nat) : Nat := c - 97

/-- Byte offset of a local inside the 128 KiB reservation:
`BYTE_OFFSET_OF_LOCAL(name)` is `&locals[name[0]-'a']` where
`locals = (int*)(locals_and_code + (64 << 10))` (cnp.c lines 244, 247),
so relative to the reservation base it is `65536 + 4 * (name[0] - 'a')`. -/
def BYTE_OFFSET_OF_LOCAL (c : Nat) : Nat := 65536 + 4 * (c - 97)

/-- The operations performed by the snippets `main` stitches together
(cnp.c lines 289-325): push a local's address, push a local's value,
push a literal, pop-two-push-sum, pop-two-push-product, and the final
pop-value-pop-address indirect store. -/
inductive SnippetOp where
  | loadAddr (slot : Nat)
  | load (slot : Nat)
  | const (v : Int)
  | add
  | mul
  | assignIndirect
deriving DecidableEq

/-- One stitched snippet call: the operation together with the numeric
depth suffix in the called snippet's name (`load_addr_0_fallthrough`
has depth 0, `add_1_fallthrough` has depth 1, and so on). -/
structure StitchCall where
  op : SnippetOp
  depth : Nat
deriving DecidableEq

/-- The thirteen snippet calls of `main`, in source order
(cnp.c lines 289-325), with the slot of each `BYTE_OFFSET_OF_LOCAL`
argument and the depth suffix of each called snippet. -/
def demoCalls : List StitchCall :=
  [⟨.loadAddr (localSlot 97), 0⟩,   -- load_addr_0_fallthrough(code_p, OFFSET("a"))
   ⟨.load (localSlot 98), 1⟩,       -- load_1_fallthrough(code_p, OFFSET("b"))
   ⟨.load (localSlot 99), 2⟩,       -- load_2_fallthrough(code_p, OFFSET("c"))
   ⟨.add, 1⟩,                       -- add_1_fallthrough(code_p)
   ⟨.load (localSlot 102), 2⟩,      -- load_2_fallthrough(code_p, OFFSET("f"))
   ⟨.load (localSlot 103), 3⟩,      -- load_3_fallthrough(code_p, OFFSET("g"))
   ⟨.mul, 2⟩,                       -- mul_2_fallthrough(code_p)
   ⟨.add, 1⟩,                       -- add_1_fallthrough(code_p)
   ⟨.load (localSlot 100), 2⟩,      -- load_2_fallthrough(code_p, OFFSET("d"))
   ⟨.const 3, 3⟩,                   -- const_3_fallthrough(code_p, 3)
   ⟨.add, 2⟩,                       -- add_2_fallthrough(code_p)
   ⟨.mul, 1⟩,                       -- mul_1_fallthrough(code_p)
   ⟨.assignIndirect, 0⟩]            -- assign_indirect_0_fallthrough(code_p)

/-! ## Runtime semantics of the generated code -/

/-- Runtime state of the generated code: the virtual operand stack the
snippets thread through their calling convention, and the `int` slots
of the locals region.  Addresses are modelled as slot indices. -/
structure MachineState where
  vstack : List Int
  locals : List Int
deriving DecidableEq

/-- Modelled from the spec: `snippets.c` (the snippet machine-code
bodies) is not under `src/`, so the runtime effect of each snippet is
taken from spec sections 4.3/6 (operations load-named-value,
load-constant, add, multiply, indirect-assign) and the virtual-stack
comments beside each call in `main` (cnp.c lines 290-326):
`load_addr` pushes a local's address, `load` pushes the value stored
at the given address, `const` pushes the literal, `add`/`mul` pop two
values and push the sum/product, and `assign_indirect` pops a value
and then an address and stores the value there. -/
def stepSnippet : SnippetOp → MachineState → Option MachineState
  | .loadAddr s, st => some { st with vstack := (s : Int) :: st.vstack }
  | .load s, st =>
      (st.locals.get? s).map fun v => { st with vstack := v :: st.vstack }
  | .const v, st => some { st with vstack := v :: st.vstack }
  | .add, st =>
      match st.vstack with
      | x :: y :: rest => some { st with vstack := (y + x) :: rest }
      | _ => none
  | .mul, st =>
      match st.vstack with
      | x :: y :: rest => some { st with vstack := (y * x) :: rest }
      | _ => none
  | .assignIndirect, st =>
      match st.vstack with
      | v :: a :: rest =>
          if a.toNat < st.locals.length then
            some { vstack := rest, locals := st.locals.set a.toNat v }
          else none
      | _ => none

/-- Invoking the generated code runs the stitched snippets in order. -/
def runSnippets (calls : List StitchCall) (st : MachineState) :
    Option MachineState :=
  calls.foldlM (fun s c => stepSnippet c.op s) st

/-- The locals slots `a..g` as initialized by `main` before invocation
(cnp.c lines 249-255): a=0x1111 (uninitialized marker), b=2, c=3, d=4,
e=0, f=6, g=7. -/
def initLocals : List Int := [0x1111, 2, 3, 4, 0, 6, 7]

/-! ## Virtual-stack depth simulation (spec section 4.2) -/

/-- Number of operand-stack values a node consumes: leaves (`AST_NAME`,
`AST_CONST`) consume none, the binary operators (`AST_ADD`, `AST_MUL`,
`AST_ASSIGN`) consume two. -/
def nodeArity (n : Nat) : Nat :=
  if astKindOf n = AST_NAME ∨ astKindOf n = AST_CONST then 0 else 2

/-- Number of values a node leaves on the operand stack: every node
produces one result except `AST_ASSIGN`, which consumes the value and
the destination address and leaves nothing (cnp.c line 326). -/
def nodePushes (n : Nat) : Nat := if astKindOf n = AST_ASSIGN then 0 else 1

/-- Static shape of a node: its (consume, produce) stack signature. -/
def nodeShape (n : Nat) : Nat × Nat := (nodeArity n, nodePushes n)

/-- Virtual-stack simulation of the postorder walk over a list of node
shapes, starting at stack depth `d`: for each node it records the
number of not-yet-consumed values sitting below that node's result
(depth before the node minus the operands it consumes), then advances
the depth. -/
def depthsOfShape (d : Nat) : List (Nat × Nat) → List Nat
  | [] => []
  | s :: rest => (d - s.1) :: depthsOfShape (d - s.1 + s.2) rest

/-! ## The expression tree and its postorder layout (cnp.c lines 161-192) -/

/-- Expression trees as drawn in the comment at cnp.c lines 161-171:
leaves carry an `AstKind`, the lvalue flag and a token index; binary
nodes carry an `AstKind` and two children. -/
inductive Expr where
  | leaf (kind : Nat) (lval : Bool) (tokIdx : Nat)
  | binop (kind : Nat) (lhs rhs : Expr)
deriving DecidableEq

/-- Number of nodes of an expression tree. -/
def exprSize : Expr → Nat
  | .leaf _ _ _ => 1
  | .binop _ l r => exprSize l + exprSize r + 1

/-- Postorder (children before parent, left before right) flattening of
an expression tree into packed Ast nodes, storing for each binary node
only the backward displacement to the root of its left subtree, which
in postorder is `size of right subtree + 1` entries back. -/
def flattenPost : Expr → List Nat
  | .leaf k false i => [UNARYOP k i]
  | .leaf k true i => [UNARYOP_LVAL k i]
  | .binop k l r => flattenPost l ++ flattenPost r ++ [BINOP k (exprSize r + 1)]

/-- The demo expression tree for `a = (b + c + f * g) * (d + 3)` as
drawn at cnp.c lines 161-171, with each leaf's token index taken from
the `tokens` array (a=0, b=3, c=5, f=7, g=9, d=13, 3=15). -/
def demoExpr : Expr :=
  .binop AST_ASSIGN (.leaf AST_NAME true 0)
    (.binop AST_MUL
      (.binop AST_ADD
        (.binop AST_ADD (.leaf AST_NAME false 3) (.leaf AST_NAME false 5))
        (.binop AST_MUL (.leaf AST_NAME false 7) (.leaf AST_NAME false 9)))
      (.binop AST_ADD (.leaf AST_NAME false 13) (.leaf AST_CONST false 15)))

/-- For every binary node of a tree laid out in postorder starting at
index `base`, the triple (own index, index of the left operand's root,
index of the right operand's root).  In postorder a subtree's root is
the last of its entries, so a binary node at index `i` with left
subtree of size `sl` and right subtree of size `sr` sits at
`i = base + sl + sr`, its left operand's root at `base + sl - 1` and
its right operand's root at `i - 1`. -/
def binopPositions : Expr → Nat → List (Nat × Nat × Nat)
  | .leaf _ _ _, _ => []
  | .binop _ l r, base =>
      binopPositions l base ++ binopPositions r (base + exprSize l) ++
        [(base + exprSize l + exprSize r, base + exprSize l - 1,
          base + exprSize l + exprSize r - 1)]

/-! ## The trace of main's generate-finalize-invoke sequence -/

/-- The externally visible steps of `main`, in the order the straight-line
code performs them (cnp.c lines 241-349): the reservation, the writes
initializing the locals slots, the thirteen snippet-stitching calls
(each appending instruction bytes to the code region), the write of the
terminating `0xc3` return byte, the two `VirtualProtect` calls, the
call into the generated code, and the final read of `locals[0]`.
`errorEv` is in the alphabet so that "reports an error" is expressible;
`main` never emits it. -/
inductive MainEv where
  | allocEv
  | localsInit
  | stitch (i : Nat)
  | retWrite
  | protectCode
  | protectLocals
  | invoke
  | readResult
  | errorEv
deriving DecidableEq

/-- Steps that write to the code region: the stitched snippet calls and
the append of the return byte. -/
def isCodeWrite : MainEv → Bool
  | .stitch _ => true
  | .retWrite => true
  | _ => false

/-- The trace of `main` as a function of whether `VirtualAlloc`
(cnp.c line 241) and the `VirtualProtect` calls (lines 345-346)
succeed.  `main` never inspects either result - there is no branch on
them in the source - so the very same steps run in every case. -/
def mainTrace (_allocOk _protectOk : Bool) : List MainEv :=
  [.allocEv, .localsInit,
   .stitch 0, .stitch 1, .stitch 2, .stitch 3, .stitch 4, .stitch 5,
   .stitch 6, .stitch 7, .stitch 8, .stitch 9, .stitch 10, .stitch 11,
   .stitch 12,
   .retWrite, .protectCode, .protectLocals, .invoke, .readResult]

/-- The trace of the successful run of `main`. -/
def mainEvents : List MainEv := mainTrace true true

/-! ## The stitcher's byte accounting (cnp.c lines 289-335) -/

/-- Modelled from the spec: the snippet bodies live in the absent
`snippets.c`, and per spec sections 4.4/6 each snippet appends its
fixed, position-independent instruction bytes (with the immediate
patched in) at the current write pointer and returns the advanced
pointer.  `stitchRun emit p0 calls` threads the write pointer exactly
as `main` threads `code_p` (cnp.c lines 289-325), where `emit c` is the
byte sequence snippet `c` emits; it returns the final pointer and the
emitted bytes. -/
def stitchRun (emit : StitchCall → List Nat) (p0 : Nat)
    (calls : List StitchCall) : Nat × List Nat :=
  calls.foldl (fun acc c => (acc.1 + (emit c).length, acc.2 ++ emit c)) (p0, [])

/-- The finalize step `*code_p++ = 0xc3` (cnp.c line 333): append the
terminating return byte after stitching and advance the pointer once. -/
def finalizeRet (acc : Nat × List Nat) : Nat × List Nat :=
  (acc.1 + 1, acc.2 ++ [0xc3])

/-! ## Byte-level writes of the emission phase (for the region layout) -/

/-- Modelled from the spec (the snippet bodies being absent): the byte
writes of the stitching phase as (offset, byte) pairs relative to the
reservation base, a snippet called with write pointer `p` writing its
bytes at consecutive offsets from `p` (cnp.c: `code_p` starts at
`code_seg`, the reservation base, line 245). -/
def emitWrites (emit : StitchCall → List Nat) (p : Nat) :
    List StitchCall → List (Nat × Nat)
  | [] => []
  | c :: rest =>
      (List.range' p (emit c).length).zip (emit c) ++
        emitWrites emit (p + (emit c).length) rest

/-- All byte writes of code generation for the demo: the stitched
snippet bytes from offset 0, then the `0xc3` return byte at the final
write pointer (cnp.c line 333). -/
def allDemoWrites (emit : StitchCall → List Nat) : List (Nat × Nat) :=
  emitWrites emit 0 demoCalls ++ [((stitchRun emit 0 demoCalls).1, 0xc3)]

/-- Apply a list of (offset, byte) writes to a byte memory. -/
def writeMem (m : Nat → Nat) (ws : List (Nat × Nat)) : Nat → Nat :=
  ws.foldl (fun acc w => Function.update acc w.1 w.2) m

/-- Total bytes the demo compilation writes to the code region: the
stitched snippet bytes plus the one-byte return instruction. -/
def totalDemoBytes (emit : StitchCall → List Nat) : Nat :=
  (demoCalls.map fun c => (emit c).length).sum + 1

/-! ## Helper lemmas on the bit-level encodings -/

/-- Bitwise or of values with disjoint bits is addition: if the low `n`
bits of `a` are clear and `b` fits in `n` bits, `a ||| b = a + b`. -/
theorem lor_disjoint_add :
    ∀ (n a b : Nat), a % 2 ^ n = 0 → b < 2 ^ n → a ||| b = a + b := by
  intro n
  induction n with
  | zero =>
    intro a b _ hb
    have hb0 : b = 0 := by omega
    subst hb0
    simp
  | succ n ih =>
    intro a b ha hb
    have hdvd : (2 : Nat) ∣ 2 ^ (n + 1) := Dvd.intro (2 ^ n) (by ring)
    have ha2 : a % 2 = 0 := by
      have := Nat.mod_mod_of_dvd a hdvd
      omega
    obtain ⟨t, ht⟩ := Nat.dvd_of_mod_eq_zero ha
    have hdiv : a / 2 = 2 ^ n * t := by
      subst ht
      rw [pow_succ]
      rw [show 2 ^ n * 2 * t = 2 * (2 ^ n * t) by ring]
      exact Nat.mul_div_cancel_left _ (by norm_num)
    have hd : a / 2 % 2 ^ n = 0 := by rw [hdiv]; exact Nat.mul_mod_right _ _
    have hb2 : b / 2 < 2 ^ n := by
      have : (2 : Nat) ^ (n + 1) = 2 ^ n * 2 := pow_succ 2 n
      rw [Nat.div_lt_iff_lt_mul (by norm_num)]
      omega
    have ihr := ih (a / 2) (b / 2) hd hb2
    have hmod : (a ||| b) % 2 = b % 2 := by
      rcases Nat.mod_two_eq_zero_or_one (a ||| b) with h2 | h2 <;>
        rcases Nat.mod_two_eq_zero_or_one b with hB | hB <;>
          first
          | omega
          | (exfalso
             have := Nat.or_mod_two_eq_one (a := a) (b := b)
             omega)
    have hdivtwo := Nat.or_div_two (a := a) (b := b)
    have e1 := Nat.div_add_mod (a ||| b) 2
    have e2 := Nat.div_add_mod a 2
    have e3 := Nat.div_add_mod b 2
    omega

/-- The mask `0xffffff` keeps the low 24 bits. -/
theorem mask24 (v : Nat) : v &&& 0xffffff = v % 2 ^ 24 := by
  have h : (0xffffff : Nat) = 2 ^ 24 - 1 := by norm_num
  rw [h, Nat.and_pow_two_sub_one_eq_mod]

/-- The mask `0xfff` keeps the low 12 bits. -/
theorem mask12 (v : Nat) : v &&& 0xfff = v % 2 ^ 12 := by
  have h : (0xfff : Nat) = 2 ^ 12 - 1 := by norm_num
  rw [h, Nat.and_pow_two_sub_one_eq_mod]

/-- The mask `0xff` keeps the low 8 bits. -/
theorem mask8 (v : Nat) : v &&& 0xff = v % 2 ^ 8 := by
  have h : (0xff : Nat) = 2 ^ 8 - 1 := by norm_num
  rw [h, Nat.and_pow_two_sub_one_eq_mod]

/-- The mask `0x7f` keeps the low 7 bits. -/
theorem mask7 (v : Nat) : v &&& 0x7f = v % 2 ^ 7 := by
  have h : (0x7f : Nat) = 2 ^ 7 - 1 := by norm_num
  rw [h, Nat.and_pow_two_sub_one_eq_mod]

/-- Masking with `0x80` isolates bit 7. -/
theorem and128_eq (x : Nat) : x &&& 0x80 = x / 2 ^ 7 % 2 * 2 ^ 7 := by
  have h := Nat.and_two_pow x 7
  have ht : x.testBit 7 = decide (x / 2 ^ 7 % 2 = 1) := Nat.testBit_to_div_mod
  rcases Nat.mod_two_eq_zero_or_one (x / 2 ^ 7) with h2 | h2 <;>
    simp only [ht, h2] at h <;> norm_num at h <;> omega

/-- Arithmetic form of `UNARYOP`: low byte the kind, above it the
24-bit index. -/
theorem UNARYOP_eq (k v : Nat) (hk : k < 2 ^ 8) :
    UNARYOP k v = v % 2 ^ 24 * 2 ^ 8 + k := by
  unfold UNARYOP
  rw [mask24, Nat.shiftLeft_eq]
  exact lor_disjoint_add 8 _ _ (Nat.mul_mod_left _ _) hk

/-- Arithmetic form of `UNARYOP_LVAL`: like `UNARYOP` plus the `0x80`
lvalue bit. -/
theorem UNARYOP_LVAL_eq (k v : Nat) (hk : k < 2 ^ 7) :
    UNARYOP_LVAL k v = v % 2 ^ 24 * 2 ^ 8 + 2 ^ 7 + k := by
  unfold UNARYOP_LVAL
  rw [mask24, Nat.shiftLeft_eq]
  rw [lor_disjoint_add 8 _ 0x80 (Nat.mul_mod_left _ _) (by norm_num)]
  rw [lor_disjoint_add 7 _ k (by omega) hk]
  norm_num

/-- Arithmetic form of `BINOP`: low byte the kind, bits 20-31 the
12-bit displacement. -/
theorem BINOP_eq (k d : Nat) (hk : k < 2 ^ 8) :
    BINOP k d = d % 2 ^ 12 * 2 ^ 20 + k := by
  unfold BINOP
  rw [mask12, Nat.shiftLeft_eq]
  exact lor_disjoint_add 20 _ _ (Nat.mul_mod_left _ _) (by omega)

/-- Unfolding of the stitcher's fold: the pointer advances by the sum
of the emitted lengths and the output is the concatenation of the
emitted byte runs. -/
theorem stitch_foldl_spec (emit : StitchCall → List Nat) :
    ∀ (calls : List StitchCall) (p0 : Nat) (out : List Nat),
      calls.foldl (fun acc c => (acc.1 + (emit c).length, acc.2 ++ emit c)) (p0, out)
        = (p0 + (calls.map fun c => (emit c).length).sum,
           out ++ (calls.map emit).flatten) := by
  intro calls
  induction calls with
  | nil => intro p0 out; simp
  | cons c rest ih =>
    intro p0 out
    rw [List.foldl_cons, ih]
    simp [List.append_assoc, Nat.add_assoc]

/-- Every byte offset written while stitching `calls` from pointer `p`
lies below `p` plus the total emitted length. -/
theorem emitWrites_offset_lt (emit : StitchCall → List Nat) :
    ∀ (calls : List StitchCall) (p : Nat) (w : Nat × Nat),
      w ∈ emitWrites emit p calls →
      w.1 < p + (calls.map fun c => (emit c).length).sum := by
  intro calls
  induction calls with
  | nil => intro p w h; simp [emitWrites] at h
  | cons c rest ih =>
    intro p w h
    unfold emitWrites at h
    rw [List.mem_append] at h
    rcases h with h | h
    · have := (List.of_mem_zip h).1
      rw [List.mem_range'_1] at this
      simp only [List.map_cons, List.sum_cons]
      omega
    · have := ih (p + (emit c).length) w h
      simp only [List.map_cons, List.sum_cons]
      omega

/-- A memory cell no write targets keeps its value. -/
theorem writeMem_eq_of_ne (ws : List (Nat × Nat)) :
    ∀ (m : Nat → Nat) (a : Nat), (∀ w ∈ ws, w.1 ≠ a) → writeMem m ws a = m a := by
  induction ws with
  | nil => intro m a _; rfl
  | cons w rest ih =>
    intro m a h
    unfold writeMem
    rw [List.foldl_cons]
    have hrest : writeMem (Function.update m w.1 w.2) rest a =
        Function.update m w.1 w.2 a :=
      ih _ a fun x hx => h x (List.mem_cons_of_mem _ hx)
    rw [writeMem] at hrest
    rw [hrest, Function.update_noteq (fun hc => h w (List.mem_cons_self _ _) hc.symm)]

/-! ## Claim theorems -/

/-- Claim C1: for the expression `a = (b + c + f * g) * (d + 3)` with the
locals initialized to b=2, c=3, f=6, g=7, d=4 before invocation,
invoking the generated code (running the thirteen stitched snippets in
order) empties the virtual stack and leaves 329 in local slot `a`,
which `main` reads back as `locals[0]`. -/
theorem invocation_leaves_329_in_slot_a :
    runSnippets demoCalls ⟨[], initLocals⟩ =
      some ⟨[], [329, 2, 3, 4, 0, 6, 7]⟩ ∧
    (runSnippets demoCalls ⟨[], initLocals⟩).map
      (fun st => st.locals.get? (localSlot 97)) = some (some 329) := by
  decide

/-- Claim C2, counterexample: the leaf-index decode `(int)nodes[i] >> 8`
(cnp.c line 200) does not invert `UNARYOP` on all accepted field values.
The index `2 ^ 23` passes the constructor's 24-bit mask untruncated, yet
decodes to `-2 ^ 23`: the decode sign-extends bit 23 of the stored
field. -/
theorem astTokIndex_sign_extends_high_index :
    (2 ^ 23 : Nat) &&& 0xffffff = 2 ^ 23 ∧
    astTokIndex (UNARYOP AST_NAME (2 ^ 23)) = -(2 ^ 23) ∧
    astTokIndex (UNARYOP AST_NAME (2 ^ 23)) ≠ ((2 ^ 23 : Nat) : Int) := by
  decide

/-- Claim C2, amended: decoding the packed encodings recovers exactly
what was stored, for every identifier payload below `2 ^ 56`, token-kind
tag below `2 ^ 8`, constant payload below `2 ^ 23` (the C `int`
arithmetic of the `CONST` macro is only defined that far), Ast kind
below `2 ^ 7` and displacement below `2 ^ 12` - but the leaf token
index only below `2 ^ 23`, because the in-code decode `(int)nodes[i] >> 8`
sign-extends bit 23 (see the counterexample). -/
theorem packed_encoding_roundtrip (c t v k i d : Nat)
    (hc : c < 2 ^ 56) (ht : t < 2 ^ 8) (hv : v < 2 ^ 23)
    (hk : k < 2 ^ 7) (hi : i < 2 ^ 23) (hd : d < 2 ^ 12) :
    (tokenKindOf (VAR c) = TK_IDENT ∧ tokenPayload (VAR c) = c) ∧
    (tokenKindOf (TOK t) = t ∧ tokenPayload (TOK t) = 0) ∧
    (tokenKindOf (CONST v) = TK_CONST ∧ tokenPayload (CONST v) = v) ∧
    (astKindOf (UNARYOP k i) = k ∧ astLval (UNARYOP k i) = false ∧
      astTokIndex (UNARYOP k i) = (i : Int)) ∧
    (astKindOf (UNARYOP_LVAL k i) = k ∧ astLval (UNARYOP_LVAL k i) = true ∧
      astTokIndex (UNARYOP_LVAL k i) = (i : Int)) ∧
    (astKindOf (BINOP k d) = k ∧ astDisp (BINOP k d) = d) := by
  have hvar : VAR c = c * 2 ^ 8 + 2 := by
    unfold VAR TK_IDENT
    rw [Nat.shiftLeft_eq, lor_disjoint_add 8 _ 2 (Nat.mul_mod_left _ _) (by norm_num)]
    exact Nat.mod_eq_of_lt (by omega)
  have hconst : CONST v = v * 2 ^ 8 + 3 := by
    unfold CONST TK_CONST
    rw [Nat.shiftLeft_eq, lor_disjoint_add 8 _ 3 (Nat.mul_mod_left _ _) (by norm_num)]
    exact Nat.mod_eq_of_lt (by omega)
  have hi24 : i % 2 ^ 24 = i := Nat.mod_eq_of_lt (by omega)
  have hu : UNARYOP k i = i * 2 ^ 8 + k := by rw [UNARYOP_eq k i (by omega), hi24]
  have hul : UNARYOP_LVAL k i = i * 2 ^ 8 + 2 ^ 7 + k := by
    rw [UNARYOP_LVAL_eq k i hk, hi24]
  have hb : BINOP k d = d % 2 ^ 12 * 2 ^ 20 + k := BINOP_eq k d (by omega)
  have hidx1 : astTokIndex (UNARYOP k i) = (i : Int) := by
    unfold astTokIndex toInt32
    rw [hu]
    rw [Nat.mod_eq_of_lt (show i * 2 ^ 8 + k < 2 ^ 32 by omega)]
    rw [if_pos (by push_cast; omega)]
    omega
  have hidx2 : astTokIndex (UNARYOP_LVAL k i) = (i : Int) := by
    unfold astTokIndex toInt32
    rw [hul]
    rw [Nat.mod_eq_of_lt (show i * 2 ^ 8 + 2 ^ 7 + k < 2 ^ 32 by omega)]
    rw [if_pos (by push_cast; omega)]
    omega
  have hlv1 : astLval (UNARYOP k i) = false := by
    have h0 : UNARYOP k i &&& 0x80 = 0 := by rw [and128_eq, hu]; omega
    simp [astLval, h0]
  have hlv2 : astLval (UNARYOP_LVAL k i) = true := by
    have h0 : UNARYOP_LVAL k i &&& 0x80 = 2 ^ 7 := by rw [and128_eq, hul]; omega
    simp [astLval, h0]
  refine ⟨⟨?_, ?_⟩, ⟨?_, ?_⟩, ⟨?_, ?_⟩, ⟨?_, hlv1, hidx1⟩, ⟨?_, hlv2, hidx2⟩, ?_, ?_⟩
  · unfold tokenKindOf TK_IDENT; rw [mask8, hvar]; omega
  · unfold tokenPayload; rw [Nat.shiftRight_eq_div_pow, hvar]; omega
  · unfold tokenKindOf TOK; rw [mask8]; omega
  · unfold tokenPayload TOK; rw [Nat.shiftRight_eq_div_pow]; omega
  · unfold tokenKindOf TK_CONST; rw [mask8, hconst]; omega
  · unfold tokenPayload; rw [Nat.shiftRight_eq_div_pow, hconst]; omega
  · unfold astKindOf; rw [mask7, hu]; omega
  · unfold astKindOf; rw [mask7, hul]; omega
  · unfold astKindOf; rw [mask7, hb]; omega
  · unfold astDisp; rw [Nat.shiftRight_eq_div_pow, hb]; omega

/-- Witness for the amended claim C2, at the concrete field values
c=97 ('a'), t=4 (`TK_PLUS`), v=3, k=4 (`AST_NAME`), i=15, d=12. -/
theorem packed_encoding_roundtrip_witness :
    ((97 : Nat) < 2 ^ 56 ∧ (4 : Nat) < 2 ^ 8 ∧ (3 : Nat) < 2 ^ 23 ∧
      (4 : Nat) < 2 ^ 7 ∧ (15 : Nat) < 2 ^ 23 ∧ (12 : Nat) < 2 ^ 12) ∧
    (tokenKindOf (VAR 97) = TK_IDENT ∧ tokenPayload (VAR 97) = 97) ∧
    (tokenKindOf (TOK 4) = 4 ∧ tokenPayload (TOK 4) = 0) ∧
    (tokenKindOf (CONST 3) = TK_CONST ∧ tokenPayload (CONST 3) = 3) ∧
    (astKindOf (UNARYOP 4 15) = 4 ∧ astLval (UNARYOP 4 15) = false ∧
      astTokIndex (UNARYOP 4 15) = (15 : Int)) ∧
    (astKindOf (UNARYOP_LVAL 4 15) = 4 ∧ astLval (UNARYOP_LVAL 4 15) = true ∧
      astTokIndex (UNARYOP_LVAL 4 15) = (15 : Int)) ∧
    (astKindOf (BINOP 4 12) = 4 ∧ astDisp (BINOP 4 12) = 12) :=
  ⟨by decide,
   packed_encoding_roundtrip 97 4 3 4 15 12 (by decide) (by decide)
     (by decide) (by decide) (by decide) (by decide)⟩

/-- Claim C3, counterexample: encoding a field value one unit beyond its
reserved width does not fail - the constructors have no error path.
`UNARYOP` at index `2 ^ 24` and `BINOP` at displacement `2 ^ 12`
produce perfectly ordinary encodings, identical to the encodings of 0:
the overflow is silently truncated. -/
theorem overflow_encodes_without_error :
    UNARYOP AST_NAME (2 ^ 24) = UNARYOP AST_NAME 0 ∧
    BINOP AST_ADD (2 ^ 12) = BINOP AST_ADD 0 ∧
    astIdxBits (UNARYOP AST_NAME (2 ^ 24)) = 0 ∧
    astDisp (BINOP AST_ADD (2 ^ 12)) = 0 := by
  decide

/-- Claim C3, amended: encoding a value exactly at the reserved
field-width boundary succeeds with the field preserved (`2 ^ 24 - 1` for
the token index, `2 ^ 12 - 1` for the displacement, `2 ^ 23 - 1` for a
constant payload within the `CONST` macro's defined `int` range), while
a value one unit beyond is silently truncated - its encoding equals the
encoding of 0 and no error is reported. -/
theorem field_boundary_truncation :
    astIdxBits (UNARYOP AST_NAME (2 ^ 24 - 1)) = 2 ^ 24 - 1 ∧
    UNARYOP AST_NAME (2 ^ 24) = UNARYOP AST_NAME 0 ∧
    astDisp (BINOP AST_ADD (2 ^ 12 - 1)) = 2 ^ 12 - 1 ∧
    BINOP AST_ADD (2 ^ 12) = BINOP AST_ADD 0 ∧
    tokenKindOf (CONST (2 ^ 23 - 1)) = TK_CONST ∧
    tokenPayload (CONST (2 ^ 23 - 1)) = 2 ^ 23 - 1 := by
  decide

/-- Claim C4: in `main`'s trace the finalize phase is strictly ordered.
Before the return-byte write there is no permission downgrade and no
invocation (and all thirteen snippet-stitching steps lie in that
prefix), the downgrade follows the return-byte write, the invocation
follows the downgrade, nothing writes to the code region after the
downgrade, and no invocation occurs before it. -/
theorem finalize_phase_strictly_ordered :
    (mainEvents.takeWhile (fun e => !(e == MainEv.retWrite))).all
        (fun e => e != MainEv.protectCode && e != MainEv.invoke) = true ∧
    ((mainEvents.takeWhile (fun e => !(e == MainEv.retWrite))).filter
        isCodeWrite).length = 13 ∧
    mainEvents.findIdx (· == MainEv.retWrite) <
      mainEvents.findIdx (· == MainEv.protectCode) ∧
    mainEvents.findIdx (· == MainEv.protectCode) <
      mainEvents.findIdx (· == MainEv.invoke) ∧
    ((mainEvents.drop (mainEvents.findIdx (· == MainEv.protectCode) + 1)).all
        fun e => !isCodeWrite e) = true ∧
    ((mainEvents.take (mainEvents.findIdx (· == MainEv.protectCode))).all
        fun e => e != MainEv.invoke) = true := by
  decide

/-- Claim C5: the numeric depth suffix of each stitched snippet call in
`main` equals the depth a virtual-stack simulation of the postorder
walk computes at that node (values below the node's result), and the
simulation reads nothing but the static stack shape (consume/produce
counts) of the node sequence. -/
theorem snippet_depth_suffixes_match_simulation :
    demoCalls.map StitchCall.depth = depthsOfShape 0 (nodes.map nodeShape) := by
  decide

/-- Claim C6: the demo node array is exactly the postorder flattening
of the drawn expression tree, and for every binary node of that tree
the node immediately preceding it in the array is the root of its
right operand, the stored displacement leads back exactly to the root
of its left subtree, and the packed encoding is fully reconstructed
from its kind and displacement alone (no right-operand field exists). -/
theorem binop_layout_postorder_adjacency :
    flattenPost demoExpr = nodes ∧
    ((binopPositions demoExpr 0).all fun t =>
      t.2.2 + 1 = t.1 && t.1 - astDisp (nodes.getD t.1 0) = t.2.1) = true ∧
    ((binopPositions demoExpr 0).all fun t =>
      BINOP (astKindOf (nodes.getD t.1 0)) (astDisp (nodes.getD t.1 0)) =
        nodes.getD t.1 0) = true := by
  decide

/-- Claim C7: for any snippet library and start pointer, stitching the
demo calls advances the write pointer by exactly the sum of the
emitted snippet lengths and produces exactly the concatenation of the
snippets' bytes, and the finalize step appends the single `0xc3`
return byte after that. -/
theorem stitcher_output_is_exact_concatenation
    (emit : StitchCall → List Nat) (p0 : Nat) :
    (stitchRun emit p0 demoCalls).1 =
      p0 + (demoCalls.map fun c => (emit c).length).sum ∧
    (stitchRun emit p0 demoCalls).2 = (demoCalls.map emit).flatten ∧
    finalizeRet (stitchRun emit p0 demoCalls) =
      (p0 + (demoCalls.map fun c => (emit c).length).sum + 1,
       (demoCalls.map emit).flatten ++ [0xc3]) := by
  unfold stitchRun finalizeRet
  rw [stitch_foldl_spec]
  simp

/-- Claim C8, counterexample: `main` never inspects the results of
`VirtualAlloc` or `VirtualProtect`.  When the allocation (and the
protection change) fail, the trace is unchanged: the program still
writes the locals, still stitches and invokes, and no error is ever
reported - it does not fail with an explicit error before further
steps run. -/
theorem failed_alloc_trace_unchanged :
    mainTrace false false = mainTrace true true ∧
    MainEv.localsInit ∈ mainTrace false false ∧
    MainEv.invoke ∈ mainTrace false false ∧
    MainEv.errorEv ∉ mainTrace false false ∧
    (mainTrace false true).head? ≠ some MainEv.errorEv := by
  decide

/-- Claim C8, amended: the prototype does not check the memory
service's results; whether or not reservation or protection succeeds,
it performs the identical sequence of steps and surfaces no error. -/
theorem main_ignores_memory_service_failures (allocOk protectOk : Bool) :
    mainTrace allocOk protectOk = mainEvents ∧
    MainEv.errorEv ∉ mainTrace allocOk protectOk := by
  cases allocOk <;> cases protectOk <;> exact ⟨rfl, by decide⟩

/-- Claim C9: the Ast kind and the lvalue flag occupy disjoint bits of
the low byte.  For every kind below `2 ^ 7` (which covers all `AstKind`
enumerators) and every index value, `UNARYOP_LVAL` decodes to the same
kind and the same token index as `UNARYOP`, and the two differ exactly
in the lvalue flag. -/
theorem unaryop_lval_differs_only_in_lvalue_flag (k v : Nat) (hk : k < 2 ^ 7) :
    astKindOf (UNARYOP_LVAL k v) = astKindOf (UNARYOP k v) ∧
    astTokIndex (UNARYOP_LVAL k v) = astTokIndex (UNARYOP k v) ∧
    astLval (UNARYOP k v) = false ∧
    astLval (UNARYOP_LVAL k v) = true := by
  have hm : v % 2 ^ 24 < 2 ^ 24 := Nat.mod_lt _ (by norm_num)
  have hu := UNARYOP_eq k v (by omega)
  have hul := UNARYOP_LVAL_eq k v hk
  refine ⟨?_, ?_, ?_, ?_⟩
  · unfold astKindOf; rw [mask7, mask7, hu, hul]; omega
  · unfold astTokIndex toInt32; rw [hu, hul]; split <;> split <;> omega
  · have h0 : UNARYOP k v &&& 0x80 = 0 := by rw [and128_eq, hu]; omega
    simp [astLval, h0]
  · have h0 : UNARYOP_LVAL k v &&& 0x80 = 2 ^ 7 := by rw [and128_eq, hul]; omega
    simp [astLval, h0]

/-- Witness for claim C9, at kind 4 (`AST_NAME`) and index 3. -/
theorem unaryop_lval_differs_only_in_lvalue_flag_witness :
    (4 : Nat) < 2 ^ 7 ∧
    (astKindOf (UNARYOP_LVAL 4 3) = astKindOf (UNARYOP 4 3) ∧
     astTokIndex (UNARYOP_LVAL 4 3) = astTokIndex (UNARYOP 4 3) ∧
     astLval (UNARYOP 4 3) = false ∧
     astLval (UNARYOP_LVAL 4 3) = true) :=
  ⟨by decide, unaryop_lval_differs_only_in_lvalue_flag 4 3 (by decide)⟩

/-- Claim C10: the locals array sits at byte offset 65536 of the one
128 KiB reservation, and nothing bounds the emission; whenever the
total bytes emitted for the demo - stitched snippet bytes plus the
final return byte - stay within the 65536-byte code region, no write
of code generation touches any byte at or beyond offset 65536, so
every locals slot keeps its value. -/
theorem emission_cannot_touch_locals_region
    (emit : StitchCall → List Nat) (m : Nat → Nat) (c a : Nat)
    (htotal : totalDemoBytes emit ≤ 2 ^ 16) (ha : 2 ^ 16 ≤ a) :
    writeMem m (allDemoWrites emit) a = m a ∧
    writeMem m (allDemoWrites emit) (BYTE_OFFSET_OF_LOCAL c) =
      m (BYTE_OFFSET_OF_LOCAL c) ∧
    BYTE_OFFSET_OF_LOCAL 97 = 2 ^ 16 := by
  have key : ∀ b : Nat, 2 ^ 16 ≤ b → writeMem m (allDemoWrites emit) b = m b := by
    intro b hb
    apply writeMem_eq_of_ne
    intro w hw
    unfold allDemoWrites at hw
    rw [List.mem_append] at hw
    unfold totalDemoBytes at htotal
    rcases hw with hw | hw
    · have := emitWrites_offset_lt emit demoCalls 0 w hw
      omega
    · rw [List.mem_singleton] at hw
      subst hw
      unfold stitchRun
      rw [stitch_foldl_spec]
      simp only
      omega
  refine ⟨key a ha, key _ ?_, by unfold BYTE_OFFSET_OF_LOCAL; omega⟩
  unfold BYTE_OFFSET_OF_LOCAL
  omega

/-- Witness for claim C10: a snippet library emitting one byte per
call keeps the demo total at 14 bytes, well within the code region,
and the byte at offset 65536 (slot `a`) is untouched. -/
theorem emission_cannot_touch_locals_region_witness :
    totalDemoBytes (fun _ => [144]) ≤ 2 ^ 16 ∧ (2 ^ 16 : Nat) ≤ 2 ^ 16 ∧
    (writeMem (fun _ => 0) (allDemoWrites fun _ => [144]) (2 ^ 16) = 0 ∧
     writeMem (fun _ => 0) (allDemoWrites fun _ => [144])
        (BYTE_OFFSET_OF_LOCAL 97) = 0 ∧
     BYTE_OFFSET_OF_LOCAL 97 = 2 ^ 16) :=
  ⟨by decide, by decide,
   emission_cannot_touch_locals_region (fun _ => [144]) (fun _ => 0) 97 (2 ^ 16)
     (by decide) (by decide)⟩
